import Mathlib

/-!
Shallow embedding of the RosiePi test controller
(`rosiepi/rosie/test_controller.py` and `rosiepi/rosie/cirpy_actions.py`).

Python strings and byte strings are modelled as Lean `String`; machine
integers do not occur in the modelled code.  External effects (the board
transport, the filesystem) are modelled by scripting their responses as
explicit arguments, so every definition is an executable translation of
the corresponding source function.
-/

namespace RosiePi

/-- Python `str.rstrip(chars)`: removes all trailing characters that are
members of `cs` (source: `str.rstrip` semantics used at
`test_controller.py:331` and `test_controller.py:312`). -/
def pyRstrip (s : String) (cs : List Char) : String :=
  ⟨((s.data.reverse).dropWhile (fun c => cs.contains c)).reverse⟩

/-- Embeds `result.rstrip("\r\n")` from `test_controller.py:331`. -/
def rstripCRNL (s : String) : String := pyRstrip s ['\r', '\n']

/-- Embeds `line.rstrip('\n')` from `test_controller.py:312`. -/
def rstripNL (s : String) : String := pyRstrip s ['\n']

/-- Modelled from the spec: "strip trailing CRLF from the captured text" /
"the captured text has only its trailing carriage-return+newline stripped"
read literally as removing one trailing `"\r\n"` sequence.  Used to compare
the spec's wording with the source's `rstrip("\r\n")`. -/
def specStripCRLF (s : String) : String :=
  if List.isSuffixOf ['\r', '\n'] s.data then ⟨s.data.dropLast.dropLast⟩ else s

/-- Python `file.readlines()` helper: splits a character stream into
lines, each keeping its terminating newline; a final fragment without a
newline is kept as a line; nothing follows a final newline. -/
def splitKeepNL : List Char → List Char → List (List Char)
  | [], acc => if acc.isEmpty then [] else [acc.reverse]
  | c :: cs, acc =>
    if c = '\n' then (acc.reverse ++ ['\n']) :: splitKeepNL cs []
    else splitKeepNL cs (c :: acc)

/-- Python `file.readlines()` over the file's text
(`test_controller.py:94`, `test_controller.py:304`). -/
def pyReadlines (s : String) : List String :=
  (splitKeepNL s.data []).map (fun cs => ⟨cs⟩)

/-- The three interaction actions recognized by the markup regex
(`test_controller.py:91`). -/
inductive PyAction
  | input
  | output
  | verify
deriving DecidableEq

/-- One parsed interaction: the dict value
`{"action": ..., "value": ...}` built at `test_controller.py:99-100`. -/
structure Directive where
  action : PyAction
  value : String
deriving DecidableEq

/-- ASCII fragment of the Python regex class `\s` (space, tab, newline,
carriage return, vertical tab, form feed).  Python's `\s` additionally
matches some rarer Unicode whitespace; the modelled code and all claims
only exercise the ASCII set. -/
def isPySpace (c : Char) : Bool :=
  c == ' ' || c == '\t' || c == '\n' || c == '\r' || c == '\x0b' || c == '\x0c'

/-- Embeds the regex tail `(.+$)`: one or more characters none of which is
a newline, optionally followed by a single newline ending the string (`$`
matches before a trailing newline); the group captures the characters
before that trailing newline. -/
def valueMatch (cs : List Char) : Option (List Char) :=
  let core := if cs.getLast? = some '\n' then cs.dropLast else cs
  if core ≠ [] ∧ (∀ c ∈ core, c ≠ '\n') then some core else none

/-- Embeds the regex fragment `(input|output|verify)\=`: the remainder of
the line must continue with one of the three action words followed by
`=`; returns the action and the characters after the `=`. -/
def actionSplit (cs : List Char) : Option (PyAction × List Char) :=
  if List.isPrefixOf ("input=".data) cs then some (PyAction.input, cs.drop 6)
  else if List.isPrefixOf ("output=".data) cs then some (PyAction.output, cs.drop 7)
  else if List.isPrefixOf ("verify=".data) cs then some (PyAction.verify, cs.drop 7)
  else none

/-- Embeds `has_action.match(line)` with
`has_action = re.compile(r"^\#\$\s(input|output|verify)\=(.+$)")`
(`test_controller.py:91,95`): the line must begin with `#$`, then one
whitespace character, then `<action>=<value>`. -/
def matchAction (line : String) : Option Directive :=
  match line.data with
  | '#' :: '$' :: c :: rest =>
    if isPySpace c then
      match actionSplit rest with
      | some (a, vs) =>
        match valueMatch vs with
        | some v => some ⟨a, ⟨v⟩⟩
        | none => none
      | none => none
    else none
  | _ => none

/-- Error raised by `parse_test_interactions` (the `SyntaxWarning` at
`test_controller.py:103-107`, the spec's ParseError): its message names
the offending line number and the file. -/
structure ParseErr where
  file : String
  line : Nat
deriving DecidableEq

/-- Line loop of `parse_test_interactions` (`test_controller.py:94-107`):
`n` is the 1-based number of the next line; a matching line adds an entry
keyed by the following line's number; a non-matching line starting with
`#$` raises; other lines are skipped. -/
def parseLinesFrom (file : String) : Nat → List String →
    Except ParseErr (List (Nat × Directive))
  | _, [] => .ok []
  | n, l :: ls =>
    match matchAction l with
    | some d =>
      match parseLinesFrom file (n + 1) ls with
      | .ok rest => .ok ((n + 1, d) :: rest)
      | .error e => .error e
    | none =>
      if List.isPrefixOf ['#', '$'] l.data then .error ⟨file, n⟩
      else parseLinesFrom file (n + 1) ls

/-- Embeds `parse_test_interactions` (`test_controller.py:58-109`), with
the file's text passed in place of reading from disk. -/
def parse_test_interactions (file text : String) :
    Except ParseErr (List (Nat × Directive)) :=
  parseLinesFrom file 1 (pyReadlines text)

/-- A line that triggers the `SyntaxWarning` branch
(`test_controller.py:102-107`): it begins with `#$` but does not match
the interaction regex. -/
def offending (l : String) : Bool :=
  List.isPrefixOf ['#', '$'] l.data && (matchAction l).isNone

/-- Whether the 0-based `k`-th line of `ls` is an offending line. -/
def offendingAt (ls : List String) (k : Nat) : Bool :=
  match ls.get? k with
  | some l => offending l
  | none => false

/-- Controller states.  The source stores the state as a string field
(`self.state`); the constructors below correspond to the string values
assigned in the source: `"init"` (line 183), `"board_connected"` (213),
`"error"` (222, 247), `"starting_fw_prep"` (225), `"gather_tests"` (252),
`"running_tests"` (262).  The spec's enum additionally names a `Done`
state; no assignment of such a value exists anywhere in the source, and
the constructor `done` is included only so that statements about the
spec's `Done` state can be expressed. -/
inductive CState
  | init
  | boardConnected
  | startingFwPrep
  | gatherTests
  | runningTests
  | error
  | done
deriving DecidableEq

/-- Python exception classes relevant to the modelled code.  `baseExc` is
a plain `BaseException`, which is not an `Exception` and is therefore not
caught by `except Exception` handlers; the others are `Exception`
subclasses.  Whether the external `pyboard.CPboardError` derives from
`Exception` is outside this repository; it is modelled as an `Exception`
subclass (either choice yields the same `run_tests` outcomes, since a
raised `CPboardError` reaches the `except pyboard.CPboardError` handler
either directly or re-wrapped as a `CPboardError`). -/
inductive PyExc
  | baseExc (msg : String)
  | exc (msg : String)
  | cpboardError (msg : String)
  | runtimeError (msg : String)
deriving DecidableEq

/-- Python `isinstance(e, Exception)`. -/
def PyExc.isException : PyExc → Bool
  | .baseExc _ => false
  | _ => true

/-- Python `isinstance(e, RuntimeError)`. -/
def PyExc.isRuntimeError : PyExc → Bool
  | .runtimeError _ => true
  | _ => false

/-- The exception's message (`str(e)` for single-argument exceptions). -/
def PyExc.msg : PyExc → String
  | .baseExc m => m
  | .exc m => m
  | .cpboardError m => m
  | .runtimeError m => m

/-- Scripted board transport for one `exec_line` call: the responses the
board REPL returns for the successive `read_until` reads, plus an
optional transport fault (a timeout or I/O error raised by any
`repl.write`/`repl.read_until` call before the channels are read). -/
structure ReplScript where
  okResp : String
  outResp : String
  errResp : String
  fault : Option PyExc
deriving DecidableEq

/-- Embeds `exec_line` (`test_controller.py:112-133`) against a scripted
transport.  The writes of the command and the tail character do not
influence the returned value and are recorded by `execLineWrites`.  On
the capture path (`input=False`, `echo=True`) the acknowledgement is read
up to `b"OK"`, then the stdout channel up to `b"\x04"` with the final
marker byte dropped (`output[:-1]`), then the stderr channel likewise; a
non-empty stderr raises `BaseException(error)`.  The other paths return
`None`. -/
def exec_line (rs : ReplScript) (isInput : Bool) (echo : Bool) :
    Except PyExc (Option String) :=
  match rs.fault with
  | some e => .error e
  | none =>
    if isInput then .ok none
    else if echo then
      let output : String := ⟨rs.outResp.data.dropLast⟩
      let error : String := ⟨rs.errResp.data.dropLast⟩
      if error ≠ "" then .error (.baseExc error) else .ok (some output)
    else .ok none

/-- The bytes `exec_line` writes to the transport
(`test_controller.py:115-119`): the command, then `b"\r\n"` when
submitting as input and `b"\x04"` otherwise. -/
def execLineWrites (command : String) (isInput : Bool) : List String :=
  [command, if isInput then "\r\n" else "\x04"]

/-- One line of a test script as seen by the `run_tests` line loop
(`test_controller.py:306-394`), with the board's scripted behaviour for
the calls that line makes attached to it: `blank` is a line equal to
`"\n"`; `plain` is a line with no interaction, executed via
`board.repl.execute` (which may raise); the `outD`/`inD`/`verD` variants
are lines whose number is a key of the parsed interactions, carrying that
directive's value, the transport scripts for the `exec_line` calls the
branch makes, and for verify the outcome of resolving and invoking the
verifier function. -/
inductive LineStep
  | blank
  | plain (text : String) (raises : Option PyExc)
  | outD (text : String) (value : String) (rs : ReplScript)
  | inD (text : String) (value : String) (rs1 rs2 : ReplScript)
  | verD (text : String) (value : String) (resolveErr : Option PyExc)
      (rs : ReplScript) (verRun : Except PyExc Bool)

/-- Outcome of processing one line: continue with the next line; output
mismatch (sets `this_test_passed = False`, then the
`if this_test_passed != True: break` check ends the script); a
`CPboardError` caught by the line handler at `test_controller.py:381`
(sets the flag false, logs the failure, breaks); or an exception no
handler in `run_tests` catches, which escapes the whole loop. -/
inductive LineOutcome
  | proceed
  | mismatch
  | lineFail (msg : String)
  | crash (e : PyExc)
deriving DecidableEq

/-- The log entry `"running line: ({0}) {1}".format(line_no,
line.rstrip('\n'))` (`test_controller.py:310-313`). -/
def runningLineLog (n : Nat) (text : String) : String :=
  "running line: (" ++ toString n ++ ") " ++ rstripNL text

/-- Python `line.strip('\n')` (`test_controller.py:386`). -/
def pyStripNL (s : String) : String :=
  ⟨(((s.data.dropWhile (fun c => c = '\n')).reverse.dropWhile
      (fun c => c = '\n')).reverse)⟩

/-- The failure message written by the line handler
(`test_controller.py:383-390`). -/
def failMsg (n : Nat) (text msg : String) : String :=
  "Test Failed!\n - Last code executed: \x27" ++ pyStripNL text ++
    "\x27\n - Line: " ++ toString n ++ "\n - Exception: " ++ msg

/-- Models the per-branch `except Exception as exc: raise
pyboard.CPboardError(exc) from Exception` wrappers
(`test_controller.py:327-328, 343-344, 373-374`): an `Exception` is
re-raised as `CPboardError`; a plain `BaseException` is not caught and
propagates unchanged. -/
def reraiseAsCPboard (e : PyExc) : PyExc :=
  if e.isException then .cpboardError e.msg else e

/-- Models the line handler `except pyboard.CPboardError as line_err`
(`test_controller.py:381-391`): a `CPboardError` fails the line with the
failure message logged; any other exception escapes `run_tests`. -/
def outerCatch (n : Nat) (text : String) (logPre : List String)
    (e : PyExc) : List String × LineOutcome :=
  match e with
  | .cpboardError m => (logPre ++ [failMsg n text m], .lineFail m)
  | _ => (logPre, .crash e)

/-- Processes one line of a script exactly as the body of the line loop
(`test_controller.py:306-394`) does, returning the log entries written
for that line and the control-flow outcome. -/
def runLine (n : Nat) (l : LineStep) : List String × LineOutcome :=
  match l with
  | .blank => ([], .proceed)
  | .plain text raises =>
    let head := runningLineLog n text
    match raises with
    | none => ([head], .proceed)
    | some e => outerCatch n text [head] e
  | .outD text value rs =>
    let head := runningLineLog n text
    let l2 := "- Testing for output of: " ++ value
    match exec_line rs false true with
    | .error e => outerCatch n text [head, l2] (reraiseAsCPboard e)
    | .ok out =>
      -- on this path `exec_line` always captures a string; `getD` is
      -- unreachable padding for totality
      let res := rstripCRNL (out.getD "")
      if res = value then ([head, l2, " - Passed!"], .proceed)
      else ([head, l2, " - Passed!"], .mismatch)
  | .inD text value rs1 rs2 =>
    let head := runningLineLog n text
    let l2 := "- Sending input: " ++ value
    match exec_line rs1 false false with
    | .error e => outerCatch n text [head, l2] (reraiseAsCPboard e)
    | .ok _ =>
      match exec_line rs2 true true with
      | .error e => outerCatch n text [head, l2] (reraiseAsCPboard e)
      | .ok _ => ([head, l2], .proceed)
  | .verD text value resolveErr rs verRun =>
    let head := runningLineLog n text
    let l2 := "- Verifying with: " ++ value
    match resolveErr with
    | some e => outerCatch n text [head, l2] (reraiseAsCPboard e)
    | none =>
      match exec_line rs false true with
      | .error e => outerCatch n text [head, l2] (reraiseAsCPboard e)
      | .ok _ =>
        match verRun with
        | .error e => outerCatch n text [head, l2] (reraiseAsCPboard e)
        | .ok true => ([head, l2, " - Passed!"], .proceed)
        | .ok false =>
          outerCatch n text [head, l2]
            (reraiseAsCPboard (.cpboardError ("\x27" ++ value ++ "\x27 test failed.")))

/-- Per-script line loop of `run_tests`: processes lines starting at
number `n` with `this_test_passed` initially `True`; returns the script's
pass flag and its transcript entries, or the exception that escaped. -/
def runScriptFrom (n : Nat) : List LineStep → Except PyExc (Bool × List String)
  | [] => .ok (true, [])
  | l :: ls =>
    match runLine n l with
    | (log, .proceed) =>
      match runScriptFrom (n + 1) ls with
      | .ok (p, rest) => .ok (p, log ++ rest)
      | .error e => .error e
    | (log, .mismatch) => .ok (false, log)
    | (log, .lineFail _) => .ok (false, log)
    | (_, .crash e) => .error e

/-- The script's recorded outcome: `some passed` when the line loop
completes (possibly by `break`), `none` when an exception escapes it. -/
def runScriptPassed (s : List LineStep) : Option Bool :=
  match runScriptFrom 1 s with
  | .ok (p, _) => some p
  | .error _ => none

/-- Script loop of `run_tests` (`test_controller.py:282-416`): for each
script run its lines; on completion record `test.test_result` and
increment `self.tests_run`; an exception escaping a script aborts the
loop, leaving the results recorded so far (`none` = `test_result` still
`None`) and the counter as mutated at that point. -/
def run_tests : List (List LineStep) →
    Except (PyExc × List (Option Bool) × Nat) (List (Option Bool) × Nat)
  | [] => .ok ([], 0)
  | s :: ss =>
    match runScriptFrom 1 s with
    | .error e => .error (e, none :: ss.map (fun _ => none), 0)
    | .ok (p, _) =>
      match run_tests ss with
      | .ok (rest, k) => .ok (some p :: rest, k + 1)
      | .error (e, rest, k) => .error (e, some p :: rest, k + 1)

/-- Outcome of the external git/build-tool steps inside `build_fw`
(`cirpy_actions.py`): the git failure path and the build-tool failure
path both raise `RuntimeError(...) from None`, with a message built from
the captured stderr/stdout (abstracted here to the string `m`). -/
inductive BuildOutcome
  | ok
  | gitErr (msg : String)
  | buildErr (msg : String)
deriving DecidableEq

/-- Embeds the failure behaviour of `build_fw` (`cirpy_actions.py`). -/
def build_fw : BuildOutcome → Except PyExc Unit
  | .ok => .ok ()
  | .gitErr m => .error (.runtimeError ("Building firmware failed:\n - " ++ m))
  | .buildErr m => .error (.runtimeError ("Building firmware failed:\n - " ++ m))

/-- Embeds the failure behaviour of `update_fw` (`cirpy_actions.py`,
final lines): any fault in the bootloader/upload sequence is caught by
`except BaseException` and re-raised as a plain `BaseException` (not a
`RuntimeError`); the Python formatting of the inner exception's argument
tuple is abstracted to the fault string `m`. -/
def update_fw : Option String → Except PyExc Unit
  | none => .ok ()
  | some m => .error (.baseExc ("Updating firmware failed:\n - " ++ m))

/-- What `start_test` did: the state field afterwards and whether
`gather_tests` / `run_tests` were reached. -/
structure StartTestRun where
  state : CState
  gathered : Bool
  ran : Bool
deriving DecidableEq

/-- Embeds `start_test` (`test_controller.py:224-264`): sets the state to
`starting_fw_prep`, runs `build_fw` then `update_fw` inside a `try`
block whose only handler is `except RuntimeError` (which sets the state
to `error`); if the state is not `error` afterwards, it gathers the
tests (state `gather_tests`) and runs them (state `running_tests`).  An
exception the handler does not catch escapes; the error value then
carries the state at the moment it escaped. -/
def start_test (b : BuildOutcome) (f : Option String) :
    Except (PyExc × CState) StartTestRun :=
  match build_fw b with
  | .error e =>
    if e.isRuntimeError then .ok ⟨CState.error, false, false⟩
    else .error (e, CState.startingFwPrep)
  | .ok _ =>
    match update_fw f with
    | .error e =>
      if e.isRuntimeError then .ok ⟨CState.error, false, false⟩
      else .error (e, CState.startingFwPrep)
    | .ok _ => .ok ⟨CState.runningTests, true, true⟩

/-- The successive values assigned to `self.state` during `start_test`
(`test_controller.py:224-264`). -/
def startTestStates (b : BuildOutcome) (f : Option String) : List CState :=
  CState.startingFwPrep ::
    (match build_fw b with
     | .error e => if e.isRuntimeError then [CState.error] else []
     | .ok _ =>
       match update_fw f with
       | .error e => if e.isRuntimeError then [CState.error] else []
       | .ok _ => [CState.gatherTests, CState.runningTests])

/-- The successive values assigned to `self.state` over a full run as
driven by `main` (`test_controller.py:436-446`): `__init__` assigns
`init`, then `board_connected` on a successful connection or `error` on
a `RuntimeError`; `start_test` is invoked only when the state is not
`error`. -/
def mainTrace (connectOk : Bool) (b : BuildOutcome) (f : Option String) :
    List CState :=
  CState.init ::
    (if connectOk then CState.boardConnected :: startTestStates b f
     else [CState.error])

/-- Position of each state in the forward order of a run; `error` may
follow any of the others and `done` never occurs. -/
def stateIdx : CState → Nat
  | .init => 0
  | .boardConnected => 1
  | .startingFwPrep => 2
  | .gatherTests => 3
  | .runningTests => 4
  | .error => 5
  | .done => 6

/-- Embeds the property `TestController.result`
(`test_controller.py:419-434`).  `tests` holds the `test_result` field of
each `TestObject` in `self.tests` (`none` = Python `None`, not yet
executed), `tests_run` the `self.tests_run` counter. -/
def result (state : CState) (tests : List (Option Bool)) (tests_run : Nat) :
    Bool :=
  if state ≠ CState.error then
    if tests_run < tests.length then false
    else if tests.filter (fun t => t == some false) ≠ [] then false
    else true
  else false

/-- C1: `TestController.result` is failed (false) iff some executed
script's outcome is failed, or the controller state is error, or fewer
scripts ran than were discovered; in particular with 3 discovered, 2 run,
both passing, the result is failed. -/
theorem result_failed_iff :
    (∀ (st : CState) (tests : List (Option Bool)) (nrun : Nat),
        result st tests nrun = false ↔
          (some false ∈ tests ∨ st = CState.error ∨ nrun < tests.length))
    ∧ result CState.runningTests [some true, some true, none] 2 = false := by
  constructor
  · intro st tests nrun
    by_cases hst : st = CState.error
    · simp [result, hst]
    · by_cases hrun : nrun < tests.length
      · simp [result, hst, hrun]
      · by_cases hfail : some false ∈ tests
        · have : tests.filter (fun t => t == some false) ≠ [] := by
            intro hnil
            rw [List.filter_eq_nil_iff] at hnil
            exact hnil _ hfail rfl
          simp [result, hst, hrun, this, hfail]
        · have : tests.filter (fun t => t == some false) = [] := by
            rw [List.filter_eq_nil_iff]
            intro a ha
            simp only [beq_iff_eq]
            intro h
            exact hfail (h ▸ ha)
          simp [result, hst, hrun, this, hfail]
  · decide

/-- C5: on the capture path (`input=False`, `echo=True`) with no
transport fault, `exec_line` returns the captured stdout channel (final
marker stripped) exactly when the stderr channel (final marker stripped)
is empty, and raises a failure carrying the stderr bytes whenever that
channel is non-empty — never returning them as captured output. -/
theorem exec_line_error_channel (rs : ReplScript) (hf : rs.fault = none) :
    (exec_line rs false true = .ok (some ⟨rs.outResp.data.dropLast⟩) ↔
      (⟨rs.errResp.data.dropLast⟩ : String) = "")
    ∧ ((⟨rs.errResp.data.dropLast⟩ : String) ≠ "" →
        exec_line rs false true =
          .error (.baseExc ⟨rs.errResp.data.dropLast⟩)) := by
  constructor
  · constructor
    · intro h
      by_contra hne
      simp only [exec_line, hf, if_neg, Bool.false_eq_true, if_false,
        if_true] at h
      rw [if_pos hne] at h
      exact Except.noConfusion h
    · intro h
      simp only [exec_line, hf, Bool.false_eq_true, if_false, if_true]
      rw [if_neg (by simpa using h)]
  · intro h
    simp only [exec_line, hf, Bool.false_eq_true, if_false, if_true]
    rw [if_pos h]

/-- Witness for C5 at the spec's concrete transport: responses `OK`,
then `4\x04`, then `\x04` (empty error channel) yield captured output
`"4"` with no error. -/
theorem exec_line_error_channel_witness :
    (⟨("\x04" : String).data.dropLast⟩ : String) = "" ∧
      exec_line ⟨"OK", "4\x04", "\x04", none⟩ false true = .ok (some "4") := by
  refine ⟨rfl, ?_⟩
  exact (exec_line_error_channel ⟨"OK", "4\x04", "\x04", none⟩ rfl).1.mpr rfl

/-- C2 (code evaluated at the failing input): a build failure raises
`RuntimeError`, which `start_test` catches, setting the state to `error`
with no tests gathered or run; but a flash failure — `update_fw` raising
a plain `BaseException`, which `except RuntimeError` does not catch —
escapes `start_test` with the state still `starting_fw_prep`, not
`error` (no tests are gathered or run in that case either, because the
exception aborts `start_test`). -/
theorem start_test_flash_failure_uncaught :
    (∀ m, start_test (BuildOutcome.gitErr m) none =
        .ok ⟨CState.error, false, false⟩)
    ∧ (∀ m, start_test (BuildOutcome.buildErr m) none =
        .ok ⟨CState.error, false, false⟩)
    ∧ (∀ m, start_test BuildOutcome.ok (some m) =
        .error (.baseExc ("Updating firmware failed:\n - " ++ m),
          CState.startingFwPrep)) :=
  ⟨fun _ => rfl, fun _ => rfl, fun _ => rfl⟩

/-- C3 counterexample: on the fully successful run the state trace is
`init, board_connected, starting_fw_prep, gather_tests, running_tests`;
the final state is `running_tests` and the spec's `Done` state is never
assigned, so the run does not "finally reach Done". -/
theorem mainTrace_success_lacks_done :
    mainTrace true BuildOutcome.ok none =
      [CState.init, CState.boardConnected, CState.startingFwPrep,
        CState.gatherTests, CState.runningTests]
    ∧ (mainTrace true BuildOutcome.ok none).getLast? =
        some CState.runningTests
    ∧ CState.done ∉ mainTrace true BuildOutcome.ok none := by
  refine ⟨rfl, rfl, by decide⟩

/-- C3 amended: over every run the state trace moves strictly forward in
the order init, board_connected, starting_fw_prep (PreparingFirmware),
gather_tests, running_tests, with error only ever as the final state of
the trace; the spec's `Done` state never occurs; and on the success path
the final state is `running_tests`. -/
theorem mainTrace_forward_error_terminal
    (c : Bool) (b : BuildOutcome) (f : Option String) :
    List.Chain' (fun s t => stateIdx s < stateIdx t) (mainTrace c b f)
    ∧ CState.done ∉ mainTrace c b f
    ∧ CState.error ∉ (mainTrace c b f).dropLast
    ∧ (mainTrace true BuildOutcome.ok none).getLast? =
        some CState.runningTests := by
  have key : mainTrace c b f = [CState.init, CState.error]
      ∨ mainTrace c b f = [CState.init, CState.boardConnected,
          CState.startingFwPrep, CState.error]
      ∨ mainTrace c b f = [CState.init, CState.boardConnected,
          CState.startingFwPrep]
      ∨ mainTrace c b f = [CState.init, CState.boardConnected,
          CState.startingFwPrep, CState.gatherTests,
          CState.runningTests] := by
    cases c <;> cases b <;> cases f <;>
      first
        | exact .inl rfl
        | exact .inr (.inl rfl)
        | exact .inr (.inr (.inl rfl))
        | exact .inr (.inr (.inr rfl))
  refine ⟨?_, ?_, ?_, rfl⟩ <;>
    rcases key with h | h | h | h <;> rw [h] <;>
      simp [List.chain'_cons, List.chain'_singleton, stateIdx,
        List.dropLast]


/-- Helper: the parse loop raises at the first offending line, reporting
its 1-based number offset by the loop's starting number. -/
theorem parseLinesFrom_raises (file : String) (ls : List String) :
    ∀ (n j : Nat),
      offendingAt ls j = true →
      (∀ k, k < j → offendingAt ls k = false) →
      parseLinesFrom file n ls = .error ⟨file, n + j⟩ := by
  induction ls with
  | nil =>
    intro n j hoff _
    simp [offendingAt] at hoff
  | cons l ls ih =>
    intro n j hoff hfirst
    cases j with
    | zero =>
      have hl : offending l = true := by simpa [offendingAt] using hoff
      rw [offending, Bool.and_eq_true] at hl
      have hnone : matchAction l = none :=
        Option.isNone_iff_eq_none.mp hl.2
      simp [parseLinesFrom, hnone, hl.1]
    | succ j =>
      have h0 : offending l = false := by
        simpa [offendingAt] using hfirst 0 (Nat.succ_pos j)
      have hoff2 : offendingAt ls j = true := by
        simpa [offendingAt] using hoff
      have hfirst2 : ∀ k, k < j → offendingAt ls k = false := by
        intro k hk
        simpa [offendingAt] using hfirst (k + 1) (Nat.succ_lt_succ hk)
      have hrec := ih (n + 1) j hoff2 hfirst2
      have hadd : n + 1 + j = n + (j + 1) := by omega
      cases hma : matchAction l with
      | some d => simp [parseLinesFrom, hma, hrec, hadd]
      | none =>
        have hpre : List.isPrefixOf ['#', '$'] l.data = false := by
          rw [offending, hma] at h0
          simpa using h0
        simp [parseLinesFrom, hma, hpre, hrec, hadd]

/-- Helper: every error the parse loop returns names the supplied file
and the 1-based number of an offending line. -/
theorem parseLinesFrom_error_inv (file : String) (ls : List String) :
    ∀ (n : Nat) (e : ParseErr),
      parseLinesFrom file n ls = .error e →
      ∃ j, e = ⟨file, n + j⟩ ∧ offendingAt ls j = true := by
  induction ls with
  | nil =>
    intro n e h
    simp [parseLinesFrom] at h
  | cons l ls ih =>
    intro n e h
    cases hma : matchAction l with
    | some d =>
      rw [parseLinesFrom, hma] at h
      cases hrec : parseLinesFrom file (n + 1) ls with
      | ok rest => rw [hrec] at h; exact absurd h (by simp)
      | error e2 =>
        rw [hrec] at h
        obtain ⟨j, he, hoff⟩ := ih (n + 1) e2 hrec
        refine ⟨j + 1, ?_, by simpa [offendingAt] using hoff⟩
        have : e2 = e := by simpa using h
        subst this
        rw [he]
        have : n + 1 + j = n + (j + 1) := by omega
        rw [this]
    | none =>
      cases hpre : List.isPrefixOf ['#', '$'] l.data with
      | true =>
        rw [parseLinesFrom, hma, hpre] at h
        simp at h
        refine ⟨0, by simpa using h.symm, ?_⟩
        simp [offendingAt, offending, hpre, hma]
      | false =>
        rw [parseLinesFrom, hma, hpre] at h
        simp at h
        obtain ⟨j, he, hoff⟩ := ih (n + 1) e h
        refine ⟨j + 1, ?_, by simpa [offendingAt] using hoff⟩
        rw [he]
        have : n + 1 + j = n + (j + 1) := by omega
        rw [this]

/-- Helper: every key of a successfully parsed interaction map is the
number one past a line that matches the interaction regex with that
entry's directive. -/
theorem parseLinesFrom_keys (file : String) (ls : List String) :
    ∀ (n : Nat) (m : List (Nat × Directive)),
      parseLinesFrom file n ls = .ok m →
      ∀ k d, (k, d) ∈ m →
        ∃ j l, k = n + j + 1 ∧ ls.get? j = some l ∧
          matchAction l = some d := by
  induction ls with
  | nil =>
    intro n m h k d hmem
    rw [parseLinesFrom] at h
    simp at h
    subst h
    simp at hmem
  | cons l ls ih =>
    intro n m h k d hmem
    cases hma : matchAction l with
    | some d0 =>
      rw [parseLinesFrom, hma] at h
      cases hrec : parseLinesFrom file (n + 1) ls with
      | error e => rw [hrec] at h; exact absurd h (by simp)
      | ok rest =>
        rw [hrec] at h
        have hm : (n + 1, d0) :: rest = m := by simpa using h
        subst hm
        rcases List.mem_cons.mp hmem with hhd | htl
        · have hk : k = n + 1 ∧ d = d0 := by
            constructor <;> [exact congrArg Prod.fst hhd;
              exact congrArg Prod.snd hhd]
          exact ⟨0, l, by omega, rfl, by rw [hma, hk.2]⟩
        · obtain ⟨j, l2, hk, hget, hm2⟩ := ih (n + 1) rest hrec k d htl
          exact ⟨j + 1, l2, by omega, by simpa using hget, hm2⟩
    | none =>
      cases hpre : List.isPrefixOf ['#', '$'] l.data with
      | true =>
        rw [parseLinesFrom, hma, hpre] at h
        exact absurd h (by simp)
      | false =>
        rw [parseLinesFrom, hma, hpre] at h
        simp at h
        obtain ⟨j, l2, hk, hget, hm2⟩ := ih (n + 1) m h k d hmem
        exact ⟨j + 1, l2, by omega, by simpa using hget, hm2⟩

/-- C6: for any line of the text that begins with the control-comment
prefix `#$` but does not match one of the three recognized forms (and is
the first such line), `parse_test_interactions` raises a ParseError
naming the file and that line's 1-based number. -/
theorem parse_malformed_raises (file text : String) (j : Nat)
    (hoff : offendingAt (pyReadlines text) j = true)
    (hfirst : ∀ k, k < j → offendingAt (pyReadlines text) k = false) :
    parse_test_interactions file text = .error ⟨file, j + 1⟩ := by
  have h := parseLinesFrom_raises file (pyReadlines text) 1 j hoff hfirst
  rw [parse_test_interactions, h]
  have : 1 + j = j + 1 := by omega
  rw [this]

/-- Witness for C6 at the spec's concrete input:
`parse("#$ foo=bar\n")` fails with a ParseError naming line 1. -/
theorem parse_malformed_raises_witness :
    offendingAt (pyReadlines "#$ foo=bar\n") 0 = true ∧
      parse_test_interactions "t.py" "#$ foo=bar\n" = .error ⟨"t.py", 1⟩ :=
  ⟨rfl, parse_malformed_raises "t.py" "#$ foo=bar\n" 0 rfl
    (fun k hk => absurd hk (Nat.not_lt_zero k))⟩


/-- C8 counterexample: the single-line script `"#$ input=4\n"` is
accepted by parse, yet its returned map has the key 2 while the script
has only 1 line, so the referenced line does not exist. -/
theorem parse_dangling_last_line_directive :
    parse_test_interactions "t.py" "#$ input=4\n" =
      .ok [(2, ⟨PyAction.input, "4"⟩)]
    ∧ (pyReadlines "#$ input=4\n").length = 1
    ∧ ¬(2 ≤ (pyReadlines "#$ input=4\n").length) :=
  ⟨rfl, rfl, by decide⟩

/-- C8 amended: every entry of a successfully parsed interaction map is
keyed by the number of the line immediately following its control
comment (which matches the regex with that directive); the key is at
most the script's line count plus one, the excess case arising exactly
when the control comment is the script's last line. -/
theorem parse_keys_attached (file text : String)
    (m : List (Nat × Directive))
    (hm : parse_test_interactions file text = .ok m) :
    ∀ k d, (k, d) ∈ m →
      2 ≤ k ∧ k ≤ (pyReadlines text).length + 1 ∧
        ∃ l, (pyReadlines text).get? (k - 2) = some l ∧
          matchAction l = some d := by
  intro k d hmem
  obtain ⟨j, l, hk, hget, hma⟩ :=
    parseLinesFrom_keys file (pyReadlines text) 1 m hm k d hmem
  have hj : j < (pyReadlines text).length := List.get?_eq_some.mp hget |>.1
  refine ⟨by omega, by omega, l, ?_, hma⟩
  have : k - 2 = j := by omega
  rw [this]
  exact hget

/-- Witness for C8's amended statement on a two-line script whose first
line is a control comment: the key 2 is within bounds and attached to
line 1. -/
theorem parse_keys_attached_witness :
    parse_test_interactions "t.py" "#$ input=4\nx = input()\n" =
      .ok [(2, ⟨PyAction.input, "4"⟩)]
    ∧ (2 ≤ 2 ∧ 2 ≤ (pyReadlines "#$ input=4\nx = input()\n").length + 1 ∧
        ∃ l, (pyReadlines "#$ input=4\nx = input()\n").get? 0 = some l ∧
          matchAction l = some ⟨PyAction.input, "4"⟩) :=
  ⟨rfl, parse_keys_attached "t.py" "#$ input=4\nx = input()\n"
    [(2, ⟨PyAction.input, "4"⟩)] rfl 2 ⟨PyAction.input, "4"⟩
    (List.mem_singleton.mpr rfl)⟩

/-- Helper: a line whose first character is not `#` matches neither the
interaction regex nor the `startswith("#$")` test. -/
theorem matchAction_head_not_hash (l : String) (c : Char) (cs : List Char)
    (hdata : l.data = c :: cs) (hc : c ≠ '#') :
    matchAction l = none ∧ List.isPrefixOf ['#', '$'] l.data = false := by
  constructor
  · rw [matchAction, hdata]
    split
    · rename_i heq
      rw [List.cons.injEq] at heq
      exact absurd heq.1 hc
    · rfl
  · rw [hdata]
    simp only [List.isPrefixOf, Bool.and_eq_false_iff]
    left
    simpa using fun h => hc h.symm

/-- C9: a control comment preceded by leading whitespace on its line is
silently skipped by parse: the parse error (if any) is never reported at
that line, and the returned map never holds an entry attached to the
line after it (the key only that line could contribute). -/
theorem leading_ws_line_skipped (file text : String) (j : Nat)
    (l : String) (hget : (pyReadlines text).get? j = some l)
    (hws : ∃ c cs, l.data = c :: cs ∧ isPySpace c = true) :
    (∀ e, parse_test_interactions file text = .error e → e.line ≠ j + 1)
    ∧ (∀ m, parse_test_interactions file text = .ok m →
        ∀ d, (j + 2, d) ∉ m) := by
  obtain ⟨c, cs, hdata, hsp⟩ := hws
  have hc : c ≠ '#' := by
    intro h
    subst h
    exact absurd hsp (by decide)
  obtain ⟨hnone, hpre⟩ := matchAction_head_not_hash l c cs hdata hc
  constructor
  · intro e he hline
    obtain ⟨j2, hej, hoff⟩ :=
      parseLinesFrom_error_inv file (pyReadlines text) 1 e he
    have hj2 : j2 = j := by
      have : e.line = 1 + j2 := by rw [hej]
      omega
    subst hj2
    simp only [offendingAt, hget] at hoff
    rw [offending, hpre] at hoff
    simp at hoff
  · intro m hm d hmem
    obtain ⟨j2, l2, hk, hget2, hma2⟩ :=
      parseLinesFrom_keys file (pyReadlines text) 1 m hm (j + 2) d hmem
    have hj2 : j2 = j := by omega
    subst hj2
    rw [hget] at hget2
    have : l2 = l := by simpa using hget2.symm
    subst this
    rw [hnone] at hma2
    exact Option.noConfusion hma2

/-- Witness for C9 at the line `" #$ input=4\n"` (one leading space):
parse accepts the text, produces no directive for it and no error. -/
theorem leading_ws_line_skipped_witness :
    parse_test_interactions "t.py" " #$ input=4\n" = .ok []
    ∧ ∀ d : Directive, (0 + 2, d) ∉ ([] : List (Nat × Directive)) :=
  ⟨rfl, (leading_ws_line_skipped "t.py" " #$ input=4\n" 0 " #$ input=4\n" rfl
    ⟨' ', "#$ input=4\n".data, rfl, rfl⟩).2 [] rfl⟩


/-- C4 amended: for an Output directive the captured text has all
trailing carriage-return and newline characters stripped (Python
`rstrip("\r\n")`) and is then compared byte-for-byte against the
expected value, a mismatch failing the script; expected `"4"` against
raw `"4\r\n"` passes and expected `"4"` against `"04"` fails. -/
theorem output_strip_compare (t v raw : String) :
    runScriptPassed [LineStep.outD t v ⟨"OK", raw, "\x04", none⟩] =
      some (rstripCRNL ⟨raw.data.dropLast⟩ == v)
    ∧ runScriptPassed [LineStep.outD "print(result)\n" "4"
        ⟨"OK", "4\r\n\x04", "\x04", none⟩] = some true
    ∧ runScriptPassed [LineStep.outD "print(result)\n" "4"
        ⟨"OK", "04\x04", "\x04", none⟩] = some false := by
  refine ⟨?_, rfl, rfl⟩
  have hexec : exec_line ⟨"OK", raw, "\x04", none⟩ false true =
      .ok (some ⟨raw.data.dropLast⟩) := rfl
  by_cases h : rstripCRNL ⟨raw.data.dropLast⟩ = v
  · simp [runScriptPassed, runScriptFrom, runLine, hexec, h]
  · simp [runScriptPassed, runScriptFrom, runLine, hexec, h,
      beq_eq_false_iff_ne]

/-- C4 counterexample: with expected value `"4"` and captured output
`"4\n"` (a bare newline, not a carriage-return+newline), stripping only
a trailing `"\r\n"` — the claim's comparison — leaves `"4\n"`, which
differs byte-for-byte from `"4"`, so per the claim the line fails; the
code instead strips every trailing CR/NL character and the script
passes. -/
theorem output_strip_counterexample :
    runScriptPassed [LineStep.outD "print(result)\n" "4"
        ⟨"OK", "4\n\x04", "\x04", none⟩] = some true
    ∧ specStripCRLF "4\n" = "4\n"
    ∧ "4\n" ≠ "4" :=
  ⟨rfl, rfl, by decide⟩

/-- C7 (code evaluated at the failing input): a driver error signalled
by a non-empty stderr channel makes `exec_line` raise a plain
`BaseException`; the per-branch `except Exception` wrapper and the
per-line `except pyboard.CPboardError` handler both miss it, so it
escapes `run_tests` entirely — the failing script's outcome is never
recorded (`test_result` stays `None`), `tests_run` stays 0, and the next
script is never executed, instead of failing only the current script and
proceeding. -/
theorem stderr_error_aborts_run :
    run_tests [[LineStep.outD "print(x)\n" "4"
        ⟨"OK", "x\x04", "Traceback\x04", none⟩],
      [LineStep.plain "x = 1\n" none]] =
      .error (.baseExc "Traceback", [none, none], 0) := rfl

/-- C10: an Output directive whose comparison mismatches (with no driver
error) marks the script failed, yet the transcript still receives the
line `" - Passed!"` and no failure message is recorded for that line. -/
theorem output_mismatch_logs_passed (t v raw : String)
    (h : rstripCRNL ⟨raw.data.dropLast⟩ ≠ v) :
    runScriptFrom 1 [LineStep.outD t v ⟨"OK", raw, "\x04", none⟩] =
      .ok (false, [runningLineLog 1 t, "- Testing for output of: " ++ v,
        " - Passed!"])
    ∧ " - Passed!" ∈ [runningLineLog 1 t,
        "- Testing for output of: " ++ v, " - Passed!"]
    ∧ ∀ m, failMsg 1 t m ∉ [runningLineLog 1 t,
        "- Testing for output of: " ++ v, " - Passed!"] := by
  have hexec : exec_line ⟨"OK", raw, "\x04", none⟩ false true =
      .ok (some ⟨raw.data.dropLast⟩) := rfl
  refine ⟨?_, by simp, ?_⟩
  · simp [runScriptFrom, runLine, hexec, h]
  · intro m hm
    have hT : (failMsg 1 t m).data.head? = some 'T' := rfl
    rcases List.mem_cons.mp hm with h1 | hm
    · rw [h1] at hT
      have hr : (runningLineLog 1 t).data.head? = some 'r' := rfl
      rw [hr] at hT
      exact absurd hT (by decide)
    rcases List.mem_cons.mp hm with h2 | hm
    · rw [h2] at hT
      have hd : (("- Testing for output of: " ++ v)).data.head? =
          some '-' := rfl
      rw [hd] at hT
      exact absurd hT (by decide)
    rcases List.mem_cons.mp hm with h3 | hm
    · rw [h3] at hT
      exact absurd hT (by decide)
    · simp at hm

/-- Witness for C10 at expected `"4"` against captured `"04\r\n"`: the
comparison mismatches, the script is marked failed, and the transcript
ends with `" - Passed!"`. -/
theorem output_mismatch_logs_passed_witness :
    rstripCRNL ⟨("04\r\n\x04" : String).data.dropLast⟩ ≠ "4" ∧
      runScriptFrom 1 [LineStep.outD "print(result)\n" "4"
          ⟨"OK", "04\r\n\x04", "\x04", none⟩] =
        .ok (false, [runningLineLog 1 "print(result)\n",
          "- Testing for output of: " ++ "4", " - Passed!"]) :=
  ⟨by decide, (output_mismatch_logs_passed "print(result)\n" "4"
    "04\r\n\x04" (by decide)).1⟩


end RosiePi
